import Mathlib

/-!
Shallow embedding of the marvin DRP datamodel registry
(`python/marvin/utils/datamodel/drp/base.py`) and the `Map` tools class
(`python/marvin/tools/map.py`), with theorems checking the specification
claims against the code.

Conventions of the embedding:
* Python strings are `String`; `str.lower()` / `str.upper()` are modelled by
  `strLower` / `strUpper`, which apply the ASCII case maps character-wise
  (mirroring CPython on the ASCII identifiers and extension names the code
  handles).
* Python exceptions are modelled with `Except String`: the error string keeps
  the message template of the raised exception.
* numpy arrays are modelled by the rank-generic `Arr` tree; `numpy.array`
  indexing and `reshape` become `Arr.index` and `reshape`.
* Components of the repository that are not part of the given sources (the
  generic `FuzzyList` container, the DAP `Property.fullname` method and the
  `Maps.properties` lookup) are modelled from the specification; their doc
  comments say so explicitly.
-/

/-- ASCII lower-casing of a single character, as CPython's `str.lower` acts on
the ASCII range. -/
def charLower (c : Char) : Char :=
  if 65 ≤ c.toNat ∧ c.toNat ≤ 90 then Char.ofNat (c.toNat + 32) else c

/-- ASCII upper-casing of a single character. -/
def charUpper (c : Char) : Char :=
  if 97 ≤ c.toNat ∧ c.toNat ≤ 122 then Char.ofNat (c.toNat - 32) else c

/-- Model of Python's `str.lower()`. -/
def strLower (s : String) : String := ⟨s.data.map charLower⟩

/-- Model of Python's `str.upper()`. -/
def strUpper (s : String) : String := ⟨s.data.map charUpper⟩

theorem charOfNat_toNat_lowerRange (m : Nat) (h1 : 97 ≤ m) (h2 : m ≤ 122) :
    (Char.ofNat m).toNat = m := by
  interval_cases m <;> decide

theorem charLower_idem (c : Char) : charLower (charLower c) = charLower c := by
  unfold charLower
  by_cases h : 65 ≤ c.toNat ∧ c.toNat ≤ 90
  · simp only [h, and_self, if_true]
    have hv : (Char.ofNat (c.toNat + 32)).toNat = c.toNat + 32 :=
      charOfNat_toNat_lowerRange _ (by omega) (by omega)
    have : ¬ (65 ≤ (Char.ofNat (c.toNat + 32)).toNat ∧
        (Char.ofNat (c.toNat + 32)).toNat ≤ 90) := by
      rw [hv]; omega
    simp [this]
  · simp [h]

theorem strLower_idem (s : String) : strLower (strLower s) = strLower s := by
  unfold strLower
  simp only [List.map_map]
  congr 1
  exact List.map_congr_left (fun c _ => charLower_idem c)

/-! ## The DRP datamodel (`utils/datamodel/drp/base.py`) -/

/-- `DataCube`: one extension of the DRP logcube file (`base.py`).  Only the
fields the registry logic reads are kept; `unit`, `scale` and the formats are
carried as plain data. -/
structure DataCube where
  name : String
  extension_name : String
  extension_wave : Option String := none
  extension_ivar : Option String := none
  extension_mask : Option String := none
  unit : String := ""
  description : String := ""
deriving DecidableEq, Repr

/-- `DataCube.full`: the lower-cased extension name, used as the fuzzy key. -/
def DataCube.full (c : DataCube) : String := strLower c.extension_name

/-- `Spectrum`: one spectrum extension of the DRP logcube file (`base.py`). -/
structure Spectrum where
  name : String
  extension_name : String
  extension_wave : Option String := none
  extension_std : Option String := none
  unit : String := ""
  description : String := ""
deriving DecidableEq, Repr

/-- `Spectrum.full`: the lower-cased extension name, used as the fuzzy key. -/
def Spectrum.full (s : Spectrum) : String := strLower s.extension_name

/-- The two failure modes of a fuzzy lookup. -/
inductive FuzzyErr where
  | notFound
  | ambiguous
deriving DecidableEq, Repr

/-- Modelled from the spec: `FuzzyList.find` of `marvin/utils/general/structs`
(the `FuzzyList` class itself is not under `src/`).  Following spec section
4.1: first an exact case-insensitive match on the mapper key returns that
item; else an alias-table match returns the aliased item; else the fuzzy
similarity stage returns the single candidate passing the similarity test
`sim`, fails `notFound` on zero candidates and `ambiguous` on more than one.
The similarity test (edit-distance threshold) is kept abstract as `sim`. -/
def fuzzyFind {α : Type} (sim : String → String → Bool) (mapper : α → String)
    (aliases : List (String × String)) (items : List α) (query : String) :
    Except FuzzyErr α :=
  match items.find? (fun x => strLower (mapper x) = strLower query) with
  | some x => .ok x
  | none =>
    match (aliases.lookup (strLower query)).bind
        (fun target => items.find? (fun x => strLower (mapper x) = strLower target)) with
    | some x => .ok x
    | none =>
      match items.filter (fun x => sim query (mapper x)) with
      | [] => .error .notFound
      | [x] => .ok x
      | _ => .error .ambiguous

/-- `DRPDataModel` (`base.py`): a release string with its datacube and
spectrum lists.  The parent back-references of the list elements are handled
separately by the heap model below. -/
structure DRPDataModel where
  release : String
  datacubes : List DataCube
  spectra : List Spectrum
  aliases : List (String × String) := []
deriving DecidableEq, Repr

/-- The result of a registry lookup: either a datacube or a spectrum. -/
inductive DRPEntry where
  | cube (c : DataCube)
  | spectrum (s : Spectrum)
deriving DecidableEq, Repr

/-- The message of the `ValueError` raised by `DRPDataModel.__eq__` (the
quotes added by `{!r}` around the query are dropped). -/
def tooAmbiguousMsg (value : String) : String := "too ambiguous input " ++ value

/-- `DRPDataModel.__eq__` (`base.py` lines 45-72).  First stage: exact match
of the query against the entry `name`s, datacubes first (`datacube_names.index`
returns the first index, modelled by `indexOf`/`getD`).  Second stage: fuzzy
lookup in both kind lists (`self.datacubes[value]`, whose `ValueError`s --
both `notFound` and `ambiguous` -- are caught and collapsed to `None`,
modelled by `Except.toOption`); zero or two survivors raise the
`too ambiguous input` `ValueError`. -/
def drpEq (sim : String → String → Bool) (m : DRPDataModel) (value : String) :
    Except String DRPEntry :=
  let datacube_names := m.datacubes.map DataCube.name
  let spectrum_names := m.spectra.map Spectrum.name
  if value ∈ datacube_names then
    .ok (.cube (m.datacubes.getD (datacube_names.indexOf value) {name := "", extension_name := ""}))
  else if value ∈ spectrum_names then
    .ok (.spectrum (m.spectra.getD (spectrum_names.indexOf value) {name := "", extension_name := ""}))
  else
    let datacube_best_match := (fuzzyFind sim DataCube.full [] m.datacubes value).toOption
    let spectrum_best_match := (fuzzyFind sim Spectrum.full [] m.spectra value).toOption
    match datacube_best_match, spectrum_best_match with
    | none, none => .error (tooAmbiguousMsg value)
    | some _, some _ => .error (tooAmbiguousMsg value)
    | some d, none => .ok (.cube d)
    | none, some s => .ok (.spectrum s)

/-- `DRPDataModel.__getitem__` (`base.py` lines 85-86): delegates to
`__eq__`. -/
def drpGetitem (sim : String → String → Bool) (m : DRPDataModel) (value : String) :
    Except String DRPEntry :=
  drpEq sim m value

/-! ## Heap model for `DataCubeList.append` / `SpectrumList.append`

Python objects live on a heap and are passed by reference; `copy.deepcopy`
allocates a fresh object.  To state the aliasing content of the append
methods we use an explicit heap: references are indices into a list of
objects. -/

/-- The payload of a heap object: a datacube, a spectrum, or a value of any
other Python type (represented by its type name). -/
inductive PyVal where
  | cube (c : DataCube)
  | spectrum (s : Spectrum)
  | other (typeName : String)
deriving DecidableEq, Repr

/-- The Python type name of a payload, as `type(...)` would show it. -/
def PyVal.pyType : PyVal → String
  | .cube _ => "DataCube"
  | .spectrum _ => "Spectrum"
  | .other t => t

/-- A heap object: a payload plus the mutable `parent` attribute (a reference
to the owning datamodel, or `none`). -/
structure PyObj where
  val : PyVal
  parent : Option Nat := none
deriving DecidableEq, Repr

/-- The heap: object number `r` lives at index `r`. -/
abbrev Heap := List PyObj

/-- Dereference; a dangling reference yields a dummy object (never reached
under the validity hypotheses of the theorems). -/
def heapGet (h : Heap) (r : Nat) : PyObj := h.getD r {val := .other "dangling"}

/-- In-place update of the object at reference `r`. -/
def heapSet (h : Heap) (r : Nat) (o : PyObj) : Heap := h.set r o

/-- The state of a `DataCubeList` / `SpectrumList`: the parent datamodel
reference and the references of the stored items. -/
structure FuzzyListSt where
  parentRef : Option Nat := none
  items : List Nat := []
deriving DecidableEq, Repr

/-- Which of the two element types a list accepts. -/
inductive Kind where
  | cubeK
  | spectrumK
deriving DecidableEq, Repr

/-- The `isinstance` check of the append methods. -/
def PyVal.isKind : PyVal → Kind → Bool
  | .cube _, .cubeK => true
  | .spectrum _, .spectrumK => true
  | _, _ => false

/-- The `ValueError` message of the append methods. -/
def invalidAppendMsg (k : Kind) (v : PyVal) : String :=
  (match k with
   | .cubeK => "invalid datacube of type "
   | .spectrumK => "invalid spectrum of type ") ++ v.pyType

/-- `DataCubeList.append` (`base.py` lines 107-116) and the identical
`SpectrumList.append` (lines 286-295), over the heap model.  With
`copy = true` the value is deep-copied into a fresh heap cell; the copy's
`parent` attribute is then set to the list's parent, the `isinstance` check
either appends the reference or raises `ValueError`.  Returns the final heap,
the final list state, and the raised error, if any (note that the `parent`
mutation happens before the type check, exactly as in the source). -/
def fuzzyListAppend (k : Kind) (h : Heap) (lst : FuzzyListSt) (ref : Nat)
    (copy : Bool) : Heap × FuzzyListSt × Option String :=
  let h₁ := if copy then h ++ [heapGet h ref] else h
  let objRef := if copy then h.length else ref
  let h₂ := heapSet h₁ objRef {heapGet h₁ objRef with parent := lst.parentRef}
  if (heapGet h₂ objRef).val.isKind k then
    (h₂, {lst with items := lst.items ++ [objRef]}, none)
  else
    (h₂, lst, some (invalidAppendMsg k (heapGet h₂ objRef).val))

/-! ## The `Map` tool (`tools/map.py`) -/

/-- A rank-generic numeric array, modelling the numpy arrays the loaders
handle (2D maps, 3D channel stacks, per-spaxel scalars). -/
inductive Arr where
  | scalar (x : Int)
  | dim (xs : List Arr)

/-- numpy indexing `a[i]` along the first axis. -/
def Arr.index : Arr → Nat → Except String Arr
  | .scalar _, _ => .error "IndexError: too many indices for array"
  | .dim xs, i =>
    match xs[i]? with
    | some a => .ok a
    | none => .error "IndexError: index out of range"

/-- A 2D array (list of rows). -/
abbrev Plane := List (List Int)

/-- The `Arr` view of a 2D array. -/
def Arr.ofPlane (p : Plane) : Arr :=
  .dim (p.map (fun row => .dim (row.map Arr.scalar)))

/-- Splits a flat list into rows of length `m` (the row-major layout numpy
`reshape` produces); `fuel` bounds the recursion and is instantiated with the
list length. -/
def chunkRowsAux (m : Nat) : Nat → List Int → List (List Int)
  | 0, _ => []
  | _ + 1, [] => []
  | fuel + 1, l => l.take m :: chunkRowsAux m fuel (l.drop m)

def chunkRows (m : Nat) (l : List Int) : List (List Int) :=
  chunkRowsAux m l.length l

/-- numpy `array(...).reshape(shape)` for a 2D shape: errors when the number
of elements does not match. -/
def reshape (shape : Nat × Nat) (l : List Int) : Except String Arr :=
  if l.length = shape.1 * shape.2 then
    .ok (.dim ((chunkRows shape.2 l).map (fun row => .dim (row.map Arr.scalar))))
  else
    .error ("cannot reshape array of size " ++ toString l.length)

/-- The unit of a map property: either one unit for the whole property or a
per-channel list (`map.py` lines 109-112 branch on `isinstance(unit, list)`). -/
inductive UnitSpec where
  | single (u : String)
  | perChannel (us : List String)
deriving DecidableEq, Repr

/-- A DAP map property of the `Maps.properties` registry: name, optional
channel list, whether ivar/mask extensions exist, and the unit. -/
structure MapsProperty where
  name : String
  channels : Option (List String) := none
  ivar : Bool := false
  mask : Bool := false
  unit : UnitSpec := .single ""
deriving DecidableEq, Repr

/-- Modelled from the spec: the DAP `Property.fullname` method (its class is
not under `src/`).  Per the spec's data model, each property stores DB column
aliases derived from its name, the channel and the extension; the exact
concatenation format is irrelevant to the claims, only that the column name
is a deterministic function of the three. -/
def MapsProperty.fullname (p : MapsProperty) (channel : Option String)
    (ext : Option String := none) : String :=
  p.name ++
    (match channel with
     | some c => "_" ++ c
     | none => "") ++
    (match ext with
     | some e => "_" ++ e
     | none => "")

/-- One row of the `spaxelprops` DB table: the spatial raster index plus the
per-property columns (`getattr(spaxel, name)` becomes a lookup). -/
structure SpaxelRow where
  spaxel_index : Nat
  cols : List (String × Int) := []
deriving DecidableEq, Repr

/-- One row of the DB `hdus` header table: the extension name and the
key/value pairs `header_to_dict()` returns. -/
structure DbHDU where
  extname : String
  header : List (String × String) := []
deriving DecidableEq, Repr

/-- The DB backend state a `Maps` object owns when `data_origin == 'db'`:
the version switch between the two spaxelprops tables, the tables, and the
header table. -/
structure DbData where
  dapver_le_111 : Bool := true
  spaxelprops : List SpaxelRow := []
  spaxelprops5 : List SpaxelRow := []
  hdus : List DbHDU := []
deriving DecidableEq, Repr

/-- The `data` field of a successful API map payload. -/
structure ApiData where
  value : Arr
  ivar : Arr
  mask : Arr
  unit : String
  header : List (String × String)

/-- An API response: `getData()` (`none` when the payload carries no data)
and `results['error']`. -/
structure ApiResponse where
  data : Option ApiData := none
  error : String := ""

/-- A FITS extension of the maps file: header plus array data. -/
structure FitsHDU where
  header : List (String × String) := []
  data : Arr

/-- A loaded `Maps` parent object: spatial shape, data origin, property
registry, and the per-origin backend state.  The outcome of the
`Interaction` API request is part of the environment (`apiResponse`). -/
inductive Origin where
  | file
  | db
  | api
deriving DecidableEq, Repr

structure Maps where
  shape : Nat × Nat := (0, 0)
  data_origin : Origin := .file
  properties : List MapsProperty := []
  fileData : List (String × FitsHDU) := []
  dbData : DbData := {}
  apiResponse : Except String ApiResponse := .error ""
  plateifu : String := ""

/-- Modelled from the spec: the `Maps.properties[...]` registry lookup used
by `Map.__init__` (the `Maps` class is not under `src/`).  Per spec section
4.2 the lookup resolves the (already lower-cased) name against the registry
entries for the release, yielding `None` when the name resolves to no
entry. -/
def propertiesLookup (props : List MapsProperty) (name : String) : Option MapsProperty :=
  props.find? (fun p => p.name = name)

/-- What the three loaders populate: the arrays, header, unit and the
warnings emitted during the load. -/
structure LoadResult where
  value : Arr
  ivar : Option Arr := none
  mask : Option Arr := none
  header : Option (List (String × String)) := none
  unit : Option String := none
  warnings : List String := []

/-- The final state of a constructed `Map`. -/
structure MapResult where
  property_name : String
  channel : Option String
  value : Arr
  ivar : Option Arr := none
  mask : Option Arr := none
  header : Option (List (String × String)) := none
  unit : Option String := none
  warnings : List String := []

/-- Dictionary access `self.maps.data[extName]` on the opened FITS file. -/
def fileLookup (maps : Maps) (extName : String) : Except String FitsHDU :=
  match maps.fileData.lookup extName with
  | some hdu => .ok hdu
  | none => .error ("KeyError: " ++ extName)

/-- The optional ivar/mask extension reads of the file loader: executed only
when the property declares the extension, indexing by the channel position
when a channel is in use. -/
def fileOptExt (maps : Maps) (enabled : Bool) (extName : String)
    (channel_idx : Option Nat) : Except String (Option Arr) :=
  if enabled then
    match fileLookup maps extName with
    | .error e => .error e
    | .ok hdu =>
      match channel_idx with
      | some i =>
        match hdu.data.index i with
        | .error e => .error e
        | .ok a => .ok (some a)
      | none => .ok (some hdu.data)
  else
    .ok none

/-- The unit assignment of the file loader (`map.py` lines 109-112): a list
unit is indexed by `channel_idx`; when no channel was requested that variable
was never bound, which in Python raises `NameError`. -/
def fileUnit (u : UnitSpec) (channel_idx : Option Nat) : Except String String :=
  match u with
  | .single s => .ok s
  | .perChannel us =>
    match channel_idx with
    | none => .error "NameError: channel_idx is not defined"
    | some i =>
      match us[i]? with
      | some s => .ok s
      | none => .error "IndexError: list index out of range"

/-- `Map._load_map_from_file` (`map.py` lines 90-115).  Reads the extension
named by the property, takes the channel slice `data[channels.index(channel)]`
when a channel is requested, reads the `_ivar`/`_mask` extensions when the
property declares them, and resolves the unit. -/
def loadMapFromFile (maps : Maps) (prop : MapsProperty) (pname : String)
    (ch : Option String) : Except String LoadResult :=
  match fileLookup maps pname with
  | .error e => .error e
  | .ok hdu =>
    match ch with
    | some c =>
      match prop.channels with
      | none => .error "AttributeError: NoneType has no attribute index"
      | some cs =>
        if c ∈ cs then
          let channel_idx := cs.indexOf c
          match hdu.data.index channel_idx with
          | .error e => .error e
          | .ok value =>
            match fileOptExt maps prop.ivar (pname ++ "_ivar") (some channel_idx) with
            | .error e => .error e
            | .ok ivar =>
              match fileOptExt maps prop.mask (pname ++ "_mask") (some channel_idx) with
              | .error e => .error e
              | .ok mask =>
                match fileUnit prop.unit (some channel_idx) with
                | .error e => .error e
                | .ok u =>
                  .ok {value := value, ivar := ivar, mask := mask,
                       header := some hdu.header, unit := some u}
        else
          .error "ValueError: channel is not in list"
    | none =>
      match fileOptExt maps prop.ivar (pname ++ "_ivar") none with
      | .error e => .error e
      | .ok ivar =>
        match fileOptExt maps prop.mask (pname ++ "_mask") none with
        | .error e => .error e
        | .ok mask =>
          match fileUnit prop.unit none with
          | .error e => .error e
          | .ok u =>
            .ok {value := hdu.data, ivar := ivar, mask := mask,
                 header := some hdu.header, unit := some u}

/-- The version switch of the DB loader (`map.py` lines 120-123): the
`spaxelprops` table for DAP versions up to 1.1.1, `spaxelprops5` after. -/
def dbActiveRows (d : DbData) : List SpaxelRow :=
  if d.dapver_le_111 then d.spaxelprops else d.spaxelprops5

/-- The `numpy.argsort(spaxel_index)` re-ordering applied to the DB rows
(`map.py` lines 125-126): gathering the rows by the argsort of their
`spaxel_index` is sorting them by `spaxel_index` in ascending order. -/
def sortSpaxels (rows : List SpaxelRow) : List SpaxelRow :=
  rows.insertionSort (fun a b => a.spaxel_index ≤ b.spaxel_index)

/-- `getattr(spaxel, col)` across the (already re-ordered) rows, building the
flat column array; a missing column raises `AttributeError`. -/
def getColumn (rows : List SpaxelRow) (col : String) : Except String (List Int) :=
  match rows with
  | [] => .ok []
  | row :: rest =>
    match row.cols.lookup col with
    | none => .error ("AttributeError: " ++ col)
    | some v =>
      match getColumn rest col with
      | .error e => .error e
      | .ok vs => .ok (v :: vs)

/-- One column of the DB loader: gather the column over the sorted rows and
reshape it to the spatial shape. -/
def dbLoadCol (sorted : List SpaxelRow) (shape : Nat × Nat) (col : String) :
    Except String Arr :=
  match getColumn sorted col with
  | .error e => .error e
  | .ok vals => reshape shape vals

/-- The conditional ivar/mask columns of the DB loader. -/
def dbLoadOpt (enabled : Bool) (sorted : List SpaxelRow) (shape : Nat × Nat)
    (col : String) : Except String (Option Arr) :=
  if enabled then
    match dbLoadCol sorted shape col with
    | .error e => .error e
    | .ok a => .ok (some a)
  else
    .ok none

/-- The array part of `Map._load_map_from_db` (`map.py` lines 119-140). -/
def dbLoadArrays (maps : Maps) (prop : MapsProperty) (ch : Option String) :
    Except String (Arr × Option Arr × Option Arr) :=
  let sorted := sortSpaxels (dbActiveRows maps.dbData)
  match dbLoadCol sorted maps.shape (prop.fullname ch none) with
  | .error e => .error e
  | .ok value =>
    match dbLoadOpt prop.ivar sorted maps.shape (prop.fullname ch (some "ivar")) with
    | .error e => .error e
    | .ok ivar =>
      match dbLoadOpt prop.mask sorted maps.shape (prop.fullname ch (some "mask")) with
      | .error e => .error e
      | .ok mask => .ok (value, ivar, mask)

/-- The `MarvinUserWarning` message for a missing DB header. -/
def headerWarnMsg (propName : String) : String :=
  "cannot find the header for property " ++ propName ++ "."

/-- The header part of `Map._load_map_from_db` (`map.py` lines 142-155): the
first HDU row whose extension name equals the property name case-insensitively
provides the header; no match (or an empty dictionary, which is also falsy)
leaves the header unset and emits a non-fatal warning. -/
def dbAttachHeader (propName : String) (hdus : List DbHDU) :
    Option (List (String × String)) × List String :=
  match (hdus.find? (fun hdu => strUpper propName = strUpper hdu.extname)).map DbHDU.header with
  | none => (none, [headerWarnMsg propName])
  | some [] => (none, [headerWarnMsg propName])
  | some hd => (some hd, [])

/-- `Map._load_map_from_db` (`map.py` lines 117-155): arrays first, then the
header, whose absence can only warn, never fail. -/
def loadMapFromDb (maps : Maps) (prop : MapsProperty) (ch : Option String) :
    Except String LoadResult :=
  match dbLoadArrays maps prop ch with
  | .error e => .error e
  | .ok (value, ivar, mask) =>
    let hw := dbAttachHeader prop.name maps.dbData.hdus
    .ok {value := value, ivar := ivar, mask := mask, header := hw.1,
         unit := none, warnings := hw.2}

/-- The wrapper added to a transport-level failure of the API request. -/
def apiProblemMsg (e : String) : String :=
  "found a problem when getting the map: " ++ e

/-- The error raised when the response payload carries no `data`. -/
def apiWrongMsg (e : String) : String :=
  "something went wrong. Error is: " ++ e

/-- `Map._load_map_from_api` (`map.py` lines 157-186).  The outcome of the
`Interaction` request is the `resp` argument; a transport failure is wrapped
into a `MarvinError` keeping the transport message, an absent `data` payload
raises with the server-provided error string, and on success value/ivar/mask,
unit and header are populated from the payload fields. -/
def loadMapFromApi (resp : Except String ApiResponse) : Except String LoadResult :=
  match resp with
  | .error ee => .error (apiProblemMsg ee)
  | .ok response =>
    match response.data with
    | none => .error (apiWrongMsg response.error)
    | some data =>
      .ok {value := data.value, ivar := some data.ivar, mask := some data.mask,
           header := some data.header, unit := some data.unit, warnings := []}

/-- The `MarvinError` message of the `Map.__init__` registry guard. -/
def invalidCombinationMsg : String :=
  "invalid combination of property name and channel."

/-- `channel.lower() if channel else None`: `None` and the empty string are
both falsy. -/
def normChannel (channel : Option String) : Option String :=
  match channel with
  | some c => if c = "" then none else some (strLower c)
  | none => none

/-- `self.channel not in maps_property.channels`, negated: membership of the
(possibly absent) channel in the channel list; `None` is never an element of
a list of strings. -/
def chanMem (ch : Option String) (cs : List String) : Bool :=
  match ch with
  | some c => c ∈ cs
  | none => false

/-- The body of `Map.__init__` after the argument normalisation (`map.py`
lines 61-89): registry lookup, the invalid-combination guard, then the
dispatch on the parent's data origin. -/
def mapInitCore (maps : Maps) (pname : String) (ch : Option String) :
    Except String MapResult :=
  match propertiesLookup maps.properties pname with
  | none => .error invalidCombinationMsg
  | some prop =>
    if (match prop.channels with
        | some cs => !(chanMem ch cs)
        | none => false) then
      .error invalidCombinationMsg
    else
      match (match maps.data_origin with
             | .file => loadMapFromFile maps prop pname ch
             | .db => loadMapFromDb maps prop ch
             | .api => loadMapFromApi maps.apiResponse) with
      | .error e => .error e
      | .ok lr =>
        .ok {property_name := pname, channel := ch, value := lr.value,
             ivar := lr.ivar, mask := lr.mask, header := lr.header,
             unit := lr.unit, warnings := lr.warnings}

/-- `Map.__init__` (`map.py` lines 61-89): lower-cases the property name and
the channel, then runs the registry guard and the origin dispatch. -/
def mapInit (maps : Maps) (property_name : String) (channel : Option String) :
    Except String MapResult :=
  mapInitCore maps (strLower property_name) (normChannel channel)

deriving instance DecidableEq for Except

/-! ## Theorems: the DRP registry lookup (claims about `DRPDataModel.__eq__`) -/

/-- `l[ (l.map f).index (f x) ]` recovers `x` itself when the mapped keys are
distinct: the first-index lookup of `DRPDataModel.__eq__`'s exact stage. -/
theorem getD_indexOf_map {α β : Type} [DecidableEq β] (f : α → β) :
    ∀ (l : List α) (x d : α), (l.map f).Nodup → x ∈ l →
      l.getD ((l.map f).indexOf (f x)) d = x := by
  intro l
  induction l with
  | nil => intro x d _ hx; cases hx
  | cons a t ih =>
    intro x d hnd hx
    simp only [List.map_cons] at hnd
    by_cases hfa : f x = f a
    · have hxa : x = a := by
        rcases List.mem_cons.mp hx with rfl | hxt
        · rfl
        · exfalso
          have hmem : f x ∈ t.map f := List.mem_map_of_mem f hxt
          rw [hfa] at hmem
          exact (List.nodup_cons.mp hnd).1 hmem
      subst hxa
      simp only [List.map_cons, hfa, List.indexOf_cons_self, List.getD_cons_zero]
    · have hne : f a ≠ f x := fun h => hfa h.symm
      have hxt : x ∈ t := by
        rcases List.mem_cons.mp hx with rfl | hxt
        · exact absurd rfl hfa
        · exact hxt
      simp only [List.map_cons, List.indexOf_cons_ne _ hne, Nat.succ_eq_add_one,
        List.getD_cons_succ]
      exact ih x d (List.nodup_cons.mp hnd).2 hxt

/-- A registry holding a datacube and a spectrum that share the canonical
name `flux`. -/
def exCube : DataCube := {name := "flux", extension_name := "FLUX"}

def exSpec : Spectrum := {name := "flux", extension_name := "SPECRES"}

def exReg : DRPDataModel :=
  {release := "v1", datacubes := [exCube], spectra := [exSpec]}

/-- A registry where only the fuzzy stage can match the query `h`. -/
def exCube2 : DataCube := {name := "ha", extension_name := "EXT_A"}

def exSpec2 : Spectrum := {name := "hb", extension_name := "EXT_B"}

def exReg2 : DRPDataModel :=
  {release := "v1", datacubes := [exCube2], spectra := [exSpec2]}

/-- C1 counterexample: the name `flux` resolves exactly in both kinds (and,
with this similarity test, also fuzzily in both kinds), yet the lookup does
not fail `Ambiguous`: the exact stage short-circuits on the datacubes and
returns the datacube entry. -/
theorem drp_exact_both_kinds_counterexample :
    "flux" ∈ exReg.datacubes.map DataCube.name ∧
    "flux" ∈ exReg.spectra.map Spectrum.name ∧
    drpEq (fun _ _ => true) exReg "flux" = .ok (.cube exCube) := by
  decide

/-- C1 (amended): when the query is an exact match in neither kind and the
fuzzy lookup resolves in both kinds, `DRPDataModel.__eq__` raises the
`too ambiguous input` `ValueError` instead of returning either entry. -/
theorem drp_fuzzy_both_kinds_ambiguous (sim : String → String → Bool)
    (m : DRPDataModel) (value : String) (d : DataCube) (s : Spectrum)
    (hd : value ∉ m.datacubes.map DataCube.name)
    (hs : value ∉ m.spectra.map Spectrum.name)
    (hfd : fuzzyFind sim DataCube.full [] m.datacubes value = .ok d)
    (hfs : fuzzyFind sim Spectrum.full [] m.spectra value = .ok s) :
    drpEq sim m value = .error (tooAmbiguousMsg value) := by
  unfold drpEq
  simp [hd, hs, hfd, hfs, Except.toOption]

theorem drp_fuzzy_both_kinds_ambiguous_witness :
    drpEq (fun q _ => q = "h") exReg2 "h" = .error (tooAmbiguousMsg "h") :=
  drp_fuzzy_both_kinds_ambiguous (fun q _ => q = "h") exReg2 "h" exCube2 exSpec2
    (by decide) (by decide) (by decide) (by decide)

/-- C3 counterexample: the query `zzz` reaches the fuzzy stage and matches
zero candidates in both kinds (`notFound` inside `FuzzyList`), yet
`DRPDataModel.__eq__` raises the very same `too ambiguous input` `ValueError`
that a genuinely ambiguous query (`h`, fuzzily matching both kinds) raises:
the zero-match case is not reported as a distinct `NotFound`. -/
theorem drp_zero_match_reported_ambiguous_counterexample :
    fuzzyFind (fun _ _ => false) DataCube.full [] exReg.datacubes "zzz" =
      .error .notFound ∧
    fuzzyFind (fun _ _ => false) Spectrum.full [] exReg.spectra "zzz" =
      .error .notFound ∧
    drpEq (fun _ _ => false) exReg "zzz" = .error (tooAmbiguousMsg "zzz") ∧
    drpEq (fun q _ => q = "h") exReg2 "h" = .error (tooAmbiguousMsg "h") := by
  decide

/-- C3 (amended): whenever the fuzzy stage is reached and the two per-kind
`FuzzyList` lookups either both fail (zero candidates or multiple candidates,
both raising `ValueError`, which `__eq__` catches) or both succeed, the
lookup fails with the one `too ambiguous input` `ValueError`; the zero-match
and many-match failures are not distinguished at this level, and the best
candidate is never silently picked when both kinds match. -/
theorem drp_fuzzy_zero_or_both_same_error (sim : String → String → Bool)
    (m : DRPDataModel) (value : String)
    (hd : value ∉ m.datacubes.map DataCube.name)
    (hs : value ∉ m.spectra.map Spectrum.name)
    (h : ((fuzzyFind sim DataCube.full [] m.datacubes value).toOption = none ∧
          (fuzzyFind sim Spectrum.full [] m.spectra value).toOption = none) ∨
         ((fuzzyFind sim DataCube.full [] m.datacubes value).toOption ≠ none ∧
          (fuzzyFind sim Spectrum.full [] m.spectra value).toOption ≠ none)) :
    drpEq sim m value = .error (tooAmbiguousMsg value) := by
  unfold drpEq
  simp only [hd, if_false, hs]
  rcases h with ⟨h1, h2⟩ | ⟨h1, h2⟩
  · simp [h1, h2]
  · rcases ho1 : (fuzzyFind sim DataCube.full [] m.datacubes value).toOption with _ | d
    · exact absurd ho1 h1
    · rcases ho2 : (fuzzyFind sim Spectrum.full [] m.spectra value).toOption with _ | s
      · exact absurd ho2 h2
      · simp [ho1, ho2]

theorem drp_fuzzy_zero_or_both_same_error_witness :
    drpEq (fun _ _ => false) exReg2 "zzz" = .error (tooAmbiguousMsg "zzz") :=
  drp_fuzzy_zero_or_both_same_error (fun _ _ => false) exReg2 "zzz"
    (by decide) (by decide) (Or.inl (by decide))

/-- C8 counterexample: the spectrum named `flux` is present in the registry,
but looking its canonical name up returns the datacube that shares the name
(the exact stage checks the datacubes first), not the spectrum itself:
lookup is not idempotent on canonical names for every registry. -/
theorem drp_getitem_shadowed_counterexample :
    exSpec ∈ exReg.spectra ∧ exSpec.name = "flux" ∧
    drpGetitem (fun _ _ => true) exReg "flux" = .ok (.cube exCube) ∧
    drpGetitem (fun _ _ => true) exReg "flux" ≠ .ok (.spectrum exSpec) := by
  decide

/-- C8 (amended): when canonical names are unique within each kind and no
spectrum shares its name with a datacube, looking up an entry's own canonical
name via `__getitem__` returns that same entry. -/
theorem drp_getitem_canonical_idempotent (sim : String → String → Bool)
    (m : DRPDataModel)
    (hdn : (m.datacubes.map DataCube.name).Nodup)
    (hsn : (m.spectra.map Spectrum.name).Nodup)
    (hdisj : ∀ n ∈ m.spectra.map Spectrum.name, n ∉ m.datacubes.map DataCube.name) :
    (∀ c ∈ m.datacubes, drpGetitem sim m c.name = .ok (.cube c)) ∧
    (∀ s ∈ m.spectra, drpGetitem sim m s.name = .ok (.spectrum s)) := by
  constructor
  · intro c hc
    have hmem : c.name ∈ m.datacubes.map DataCube.name := List.mem_map_of_mem _ hc
    unfold drpGetitem drpEq
    simp only [hmem, if_true]
    exact congrArg (fun x => Except.ok (DRPEntry.cube x))
      (getD_indexOf_map DataCube.name m.datacubes c _ hdn hc)
  · intro s hsmem
    have hmem : s.name ∈ m.spectra.map Spectrum.name := List.mem_map_of_mem _ hsmem
    have hnotd : s.name ∉ m.datacubes.map DataCube.name := hdisj _ hmem
    unfold drpGetitem drpEq
    simp only [hnotd, if_false, hmem, if_true]
    exact congrArg (fun x => Except.ok (DRPEntry.spectrum x))
      (getD_indexOf_map Spectrum.name m.spectra s _ hsn hsmem)

theorem drp_getitem_canonical_idempotent_witness :
    drpGetitem (fun _ _ => false) exReg2 "ha" = .ok (.cube exCube2) ∧
    drpGetitem (fun _ _ => false) exReg2 "hb" = .ok (.spectrum exSpec2) :=
  ⟨(drp_getitem_canonical_idempotent (fun _ _ => false) exReg2
      (by decide) (by decide) (by decide)).1 exCube2 (by decide),
   (drp_getitem_canonical_idempotent (fun _ _ => false) exReg2
      (by decide) (by decide) (by decide)).2 exSpec2 (by decide)⟩

/-! ## Theorems: list append with copy (claim about `DataCubeList.append` /
`SpectrumList.append`) -/

theorem heapGet_append_self (h : Heap) (x : PyObj) : heapGet (h ++ [x]) h.length = x := by
  unfold heapGet
  rw [List.getD_eq_getElem?_getD, List.getElem?_concat_length]
  rfl

theorem heapGet_set_self (h : Heap) (r : Nat) (o : PyObj) (hr : r < h.length) :
    heapGet (heapSet h r o) r = o := by
  unfold heapGet heapSet
  rw [List.getD_eq_getElem?_getD, List.getElem?_set_self hr]
  rfl

theorem heapGet_set_ne (h : Heap) (r r' : Nat) (o : PyObj) (hne : r ≠ r') :
    heapGet (heapSet h r o) r' = heapGet h r' := by
  unfold heapGet heapSet
  rw [List.getD_eq_getElem?_getD, List.getElem?_set_ne hne, List.getD_eq_getElem?_getD]

theorem heapGet_append_lt (h : Heap) (x : PyObj) (r : Nat) (hr : r < h.length) :
    heapGet (h ++ [x]) r = heapGet h r := by
  unfold heapGet
  rw [List.getD_eq_getElem?_getD, List.getElem?_append_left hr, List.getD_eq_getElem?_getD]

/-- C9: over a heap whose references are valid, `append`
(a) rejects any value whose payload is not of the list's element type with
the `ValueError` and leaves the list unmodified (for any `copy` flag), and
(b) with the default `copy = true` inserts a deep copy: the stored reference
is fresh (it is the new cell `h.length`, not among the existing items), its
payload is the value's payload with the `parent` back-reference set to the
list's parent datamodel, every stored element is still of the element type,
and mutating the caller's object afterwards (`heapSet ... ref o`) leaves the
stored entry untouched. -/
theorem fuzzy_list_append_spec (k : Kind) (h : Heap) (lst : FuzzyListSt) (ref : Nat)
    (href : ref < h.length)
    (hitems : ∀ r ∈ lst.items, r < h.length)
    (hinv : ∀ r ∈ lst.items, ((heapGet h r).val.isKind k) = true) :
    ((heapGet h ref).val.isKind k = false →
      ∀ copy, (fuzzyListAppend k h lst ref copy).2.1 = lst ∧
        (fuzzyListAppend k h lst ref copy).2.2 =
          some (invalidAppendMsg k (heapGet h ref).val)) ∧
    ((heapGet h ref).val.isKind k = true →
      (fuzzyListAppend k h lst ref true).2.2 = none ∧
      (fuzzyListAppend k h lst ref true).2.1.items = lst.items ++ [h.length] ∧
      h.length ∉ lst.items ∧
      heapGet (fuzzyListAppend k h lst ref true).1 h.length =
        {val := (heapGet h ref).val, parent := lst.parentRef} ∧
      (∀ r ∈ (fuzzyListAppend k h lst ref true).2.1.items,
        ((heapGet (fuzzyListAppend k h lst ref true).1 r).val.isKind k) = true) ∧
      (∀ o : PyObj,
        heapGet (heapSet (fuzzyListAppend k h lst ref true).1 ref o) h.length =
          heapGet (fuzzyListAppend k h lst ref true).1 h.length)) := by
  have hlen1 : h.length < (h ++ [heapGet h ref]).length := by
    simp
  have hcopyGet : heapGet (h ++ [heapGet h ref]) h.length = heapGet h ref :=
    heapGet_append_self h _
  have hcopySet :
      heapGet (heapSet (h ++ [heapGet h ref]) h.length
          {heapGet (h ++ [heapGet h ref]) h.length with parent := lst.parentRef})
        h.length =
        {val := (heapGet h ref).val, parent := lst.parentRef} := by
    rw [heapGet_set_self _ _ _ hlen1, hcopyGet]
  have hOldSet : ∀ r, r < h.length →
      heapGet (heapSet (h ++ [heapGet h ref]) h.length
          {heapGet (h ++ [heapGet h ref]) h.length with parent := lst.parentRef}) r =
        heapGet h r := by
    intro r hr
    rw [heapGet_set_ne _ _ _ _ (by omega), heapGet_append_lt _ _ _ hr]
  constructor
  · intro hbad copy
    cases copy with
    | false =>
      have hrefSet :
          heapGet (heapSet h ref {heapGet h ref with parent := lst.parentRef}) ref =
            {heapGet h ref with parent := lst.parentRef} :=
        heapGet_set_self _ _ _ href
      simp only [fuzzyListAppend, if_false, hrefSet, hbad, Bool.false_eq_true,
        cond_false]
      constructor
      · simp [hbad]
      · simp [hbad]
    | true =>
      simp only [fuzzyListAppend, if_true, hcopySet]
      constructor
      · simp [hbad]
      · simp [hbad]
  · intro hgood
    have hfresh : h.length ∉ lst.items := fun hmem => by
      have := hitems _ hmem
      omega
    simp only [fuzzyListAppend, if_true, hcopySet]
    refine ⟨by simp [hgood], by simp [hgood], hfresh, ?_, ?_, ?_⟩
    · simp only [hgood, if_true]
      exact hcopySet
    · simp only [hgood, if_true]
      intro r hr
      rcases List.mem_append.mp hr with hold | hnew
      · rw [hOldSet r (hitems r hold)]
        exact hinv r hold
      · have : r = h.length := by simpa using hnew
        subst this
        rw [hcopySet]
        exact hgood
    · simp only [hgood, if_true]
      intro o
      exact heapGet_set_ne _ _ _ _ (by omega)

theorem fuzzy_list_append_spec_witness :
    ((heapGet [{val := PyVal.other "int"}, {val := PyVal.cube exCube}] 0).val.isKind
        Kind.cubeK = false ∧
      (fuzzyListAppend Kind.cubeK
          [{val := PyVal.other "int"}, {val := PyVal.cube exCube}]
          {parentRef := some 7, items := [1]} 0 true).2.1 =
        {parentRef := some 7, items := [1]}) ∧
    (fuzzyListAppend Kind.cubeK
        [{val := PyVal.other "int"}, {val := PyVal.cube exCube}]
        {parentRef := some 7, items := [1]} 1 true).2.1.items = [1, 2] := by
  have h1 := fuzzy_list_append_spec Kind.cubeK
    [{val := PyVal.other "int"}, {val := PyVal.cube exCube}]
    {parentRef := some 7, items := [1]} 0 (by decide)
    (by decide) (by decide)
  have h2 := fuzzy_list_append_spec Kind.cubeK
    [{val := PyVal.other "int"}, {val := PyVal.cube exCube}]
    {parentRef := some 7, items := [1]} 1 (by decide)
    (by decide) (by decide)
  exact ⟨⟨by decide, (h1.1 (by decide) true).1⟩, by
    have := (h2.2 (by decide)).2.1
    simpa using this⟩

/-! ## Theorems: the API and DB loaders (`Map._load_map_from_api`,
`Map._load_map_from_db`) -/

/-- C6: in the API loader, a transport-level failure is wrapped into a
domain error whose message includes the transport message; a response whose
`getData()` is `None` raises a domain error carrying the server-provided
error string; and on success value/ivar/mask are populated as arrays and the
unit and header metadata are set from the payload. -/
theorem load_map_from_api_spec :
    (∀ ee, loadMapFromApi (.error ee) = .error (apiProblemMsg ee) ∧
      ∃ pre, apiProblemMsg ee = pre ++ ee) ∧
    (∀ resp : ApiResponse, resp.data = none →
      loadMapFromApi (.ok resp) = .error (apiWrongMsg resp.error)) ∧
    (∀ (resp : ApiResponse) (data : ApiData), resp.data = some data →
      loadMapFromApi (.ok resp) =
        .ok {value := data.value, ivar := some data.ivar, mask := some data.mask,
             header := some data.header, unit := some data.unit, warnings := []}) := by
  refine ⟨fun ee => ⟨rfl, "found a problem when getting the map: ", rfl⟩,
    fun resp hnone => ?_, fun resp data hsome => ?_⟩
  · rcases resp with ⟨d, err⟩
    simp only at hnone
    subst hnone
    rfl
  · rcases resp with ⟨d, err⟩
    simp only at hsome
    subst hsome
    rfl

theorem load_map_from_api_spec_witness :
    loadMapFromApi (.error "connection timed out") =
      .error (apiProblemMsg "connection timed out") ∧
    loadMapFromApi (.ok {data := none, error := "no results found"}) =
      .error (apiWrongMsg "no results found") ∧
    loadMapFromApi
        (.ok {data := some {value := .dim [], ivar := .dim [], mask := .dim [], unit := "km/s", header := [("A", "1")]}, error := ""}) =
      .ok {value := .dim [], ivar := some (.dim []), mask := some (.dim []), header := some [("A", "1")], unit := some "km/s", warnings := []} :=
  ⟨(load_map_from_api_spec.1 "connection timed out").1,
   load_map_from_api_spec.2.1 {data := none, error := "no results found"} rfl,
   load_map_from_api_spec.2.2 _ _ rfl⟩

/-- C7: missing header metadata in the DB loader is non-fatal.  The load
succeeds exactly when the array part succeeds (attaching the header can never
fail), and when no HDU row's extension name matches the property name
case-insensitively the loaded `Map` has no header and carries the
`cannot find the header` warning instead of an error. -/
theorem load_map_from_db_missing_header_warns (maps : Maps) (prop : MapsProperty)
    (ch : Option String) :
    ((∃ lr, loadMapFromDb maps prop ch = .ok lr) ↔
      (∃ arrs, dbLoadArrays maps prop ch = .ok arrs)) ∧
    ((∀ hdu ∈ maps.dbData.hdus, strUpper prop.name ≠ strUpper hdu.extname) →
      ∀ lr, loadMapFromDb maps prop ch = .ok lr →
        lr.header = none ∧ lr.warnings = [headerWarnMsg prop.name]) := by
  constructor
  · unfold loadMapFromDb
    rcases harr : dbLoadArrays maps prop ch with e | ⟨v, iv, mk⟩
    · constructor
      · rintro ⟨lr, hlr⟩
        cases hlr
      · rintro ⟨arrs, harrs⟩
        cases harrs
    · exact ⟨fun _ => ⟨(v, iv, mk), rfl⟩, fun _ => ⟨_, rfl⟩⟩
  · intro hh lr hlr
    have hfind : maps.dbData.hdus.find?
        (fun hdu => strUpper prop.name = strUpper hdu.extname) = none := by
      rw [List.find?_eq_none]
      intro x hx
      simpa using hh x hx
    unfold loadMapFromDb at hlr
    rcases harr : dbLoadArrays maps prop ch with e | ⟨v, iv, mk⟩ <;> rw [harr] at hlr
    · cases hlr
    · have : lr = {value := v, ivar := iv, mask := mk, header := (dbAttachHeader prop.name maps.dbData.hdus).1, unit := none, warnings := (dbAttachHeader prop.name maps.dbData.hdus).2} := by
        cases hlr
        rfl
      subst this
      unfold dbAttachHeader
      rw [hfind]
      exact ⟨rfl, rfl⟩

theorem load_map_from_db_missing_header_warns_witness :
    loadMapFromDb
        {shape := (1, 1), data_origin := Origin.db,
         dbData := {dapver_le_111 := true,
                    spaxelprops := [{spaxel_index := 0, cols := [("em", 5)]}],
                    hdus := [{extname := "OTHER"}]}}
        {name := "em"} none =
      .ok {value := .dim [.dim [.scalar 5]], header := none, unit := none,
           warnings := [headerWarnMsg "em"]} ∧
    ({value := Arr.dim [.dim [.scalar 5]], header := none, unit := none,
      warnings := [headerWarnMsg "em"] : LoadResult}).header = none := by
  have h := (load_map_from_db_missing_header_warns
      {shape := (1, 1), data_origin := Origin.db,
       dbData := {dapver_le_111 := true,
                  spaxelprops := [{spaxel_index := 0, cols := [("em", 5)]}],
                  hdus := [{extname := "OTHER"}]}}
      {name := "em"} none).2 (by decide)
      {value := .dim [.dim [.scalar 5]], header := none, unit := none,
       warnings := [headerWarnMsg "em"]} rfl
  exact ⟨rfl, h.1⟩

/-! ## Theorems: `Map.__init__` normalisation and guard -/

/-- An `ok` result of the `__init__` body carries the (already normalised)
property name and channel it was given. -/
theorem mapInitCore_ok_fields (maps : Maps) (pname : String) (ch : Option String)
    (res : MapResult) (h : mapInitCore maps pname ch = .ok res) :
    res.property_name = pname ∧ res.channel = ch := by
  unfold mapInitCore at h
  rcases hl : propertiesLookup maps.properties pname with _ | prop <;>
    simp only [hl] at h
  · cases h
  · by_cases hg : (match prop.channels with
        | some cs => !(chanMem ch cs)
        | none => false) = true
    · rw [if_pos hg] at h
      cases h
    · rw [if_neg hg] at h
      rcases hd : (match maps.data_origin with
          | Origin.file => loadMapFromFile maps prop pname ch
          | Origin.db => loadMapFromDb maps prop ch
          | Origin.api => loadMapFromApi maps.apiResponse) with e | lr <;> rw [hd] at h
      · cases h
      · cases h
        exact ⟨rfl, rfl⟩

/-- A normalised channel is already lower-case. -/
theorem normChannel_lower (ch : Option String) (c : String)
    (h : normChannel ch = some c) : strLower c = c := by
  rcases ch with _ | c0
  · cases h
  · simp only [normChannel] at h
    by_cases h0 : c0 = ""
    · rw [if_pos h0] at h
      cases h
    · rw [if_neg h0] at h
      cases h
      exact strLower_idem c0

/-- C10: `Map.__init__` lower-cases the property name and the channel before
any lookup or loading, so construction behaves identically for any
capitalisation of the two arguments, and the stored `property_name` and
`channel` attributes are always lower-case. -/
theorem map_init_case_insensitive (maps : Maps) (pn₁ pn₂ : String)
    (ch₁ ch₂ : Option String)
    (hp : strLower pn₁ = strLower pn₂) (hc : normChannel ch₁ = normChannel ch₂) :
    mapInit maps pn₁ ch₁ = mapInit maps pn₂ ch₂ ∧
    (∀ res, mapInit maps pn₁ ch₁ = .ok res →
      res.property_name = strLower pn₁ ∧ res.channel = normChannel ch₁ ∧
      strLower res.property_name = res.property_name ∧
      (∀ c, res.channel = some c → strLower c = c)) := by
  constructor
  · unfold mapInit
    rw [hp, hc]
  · intro res hres
    have hf := mapInitCore_ok_fields maps (strLower pn₁) (normChannel ch₁) res hres
    refine ⟨hf.1, hf.2, ?_, ?_⟩
    · rw [hf.1]
      exact strLower_idem pn₁
    · intro c hcres
      rw [hf.2] at hcres
      exact normChannel_lower ch₁ c hcres

/-- A one-property `Maps` fixture backed by the file origin. -/
def wMaps : Maps :=
  {shape := (1, 1), data_origin := Origin.file,
   properties := [{name := "emline_gflux", channels := some ["ha_6564"], unit := .single "u"}],
   fileData := [("emline_gflux", {header := [("K", "V")], data := .dim [.dim [.dim [.scalar 3]]]})]}

theorem map_init_case_insensitive_witness :
    mapInit wMaps "EMLINE_GFLUX" (some "Ha_6564") =
      mapInit wMaps "emline_gflux" (some "ha_6564") ∧
    (mapInit wMaps "EMLINE_GFLUX" (some "Ha_6564") =
      .ok {property_name := "emline_gflux", channel := some "ha_6564", value := .dim [.dim [.scalar 3]], header := some [("K", "V")], unit := some "u"}) :=
  ⟨(map_init_case_insensitive wMaps "EMLINE_GFLUX" "emline_gflux"
      (some "Ha_6564") (some "ha_6564") (by decide) (by decide)).1,
   rfl⟩

/-- The loader error messages never collide with the `__init__` guard
message: they all start with a different character.  `notInvalidHead e`
records that `e` does not start with the `i` of `invalid combination ...`. -/
abbrev notInvalidHead (e : String) : Prop := e.data.head? ≠ some 'i'

theorem head_append_of_head (a b : String) (c : Char) (ha : a.data.head? = some c) :
    (a ++ b).data.head? = some c := by
  rw [String.data_append]
  cases hd : a.data with
  | nil => rw [hd] at ha; cases ha
  | cons x xs =>
    rw [hd] at ha
    simpa using ha

theorem notInvalidHead_append (a b : String) (c : Char) (ha : a.data.head? = some c)
    (hc : c ≠ 'i') : notInvalidHead (a ++ b) := by
  show (a ++ b).data.head? ≠ some 'i'
  rw [head_append_of_head a b c ha]
  simp [hc]

theorem notInvalidHead_ne (e : String) (h : notInvalidHead e) :
    e ≠ invalidCombinationMsg := by
  intro heq
  subst heq
  exact h (by decide)

theorem fileLookup_error_head (maps : Maps) (n : String) (e : String)
    (h : fileLookup maps n = .error e) : notInvalidHead e := by
  unfold fileLookup at h
  rcases hl : maps.fileData.lookup n with _ | hdu <;> simp only [hl] at h
  · cases h
    exact notInvalidHead_append "KeyError: " n 'K' (by decide) (by decide)
  · cases h

theorem arrIndex_error_head (a : Arr) (i : Nat) (e : String)
    (h : a.index i = .error e) : notInvalidHead e := by
  rcases a with x | xs
  · simp only [Arr.index] at h
    cases h
    decide
  · simp only [Arr.index] at h
    rcases hg : xs[i]? with _ | y <;> simp only [hg] at h
    · cases h
      decide
    · cases h

theorem fileUnit_error_head (u : UnitSpec) (ci : Option Nat) (e : String)
    (h : fileUnit u ci = .error e) : notInvalidHead e := by
  rcases u with s | us
  · simp only [fileUnit] at h
    cases h
  · rcases ci with _ | i
    · simp only [fileUnit] at h
      cases h
      decide
    · simp only [fileUnit] at h
      rcases hg : us[i]? with _ | s <;> simp only [hg] at h
      · cases h
        decide
      · cases h

theorem fileOptExt_error_head (maps : Maps) (b : Bool) (n : String)
    (ci : Option Nat) (e : String) (h : fileOptExt maps b n ci = .error e) :
    notInvalidHead e := by
  unfold fileOptExt at h
  split at h
  · rcases hfl : fileLookup maps n with e1 | hdu <;> simp only [hfl] at h
    · cases h
      exact fileLookup_error_head _ _ _ hfl
    · rcases ci with _ | i
      · simp only at h
        cases h
      · simp only at h
        rcases hix : hdu.data.index i with e2 | a <;> simp only [hix] at h
        · cases h
          exact arrIndex_error_head _ _ _ hix
        · cases h
  · cases h

theorem loadMapFromFile_error_head (maps : Maps) (prop : MapsProperty)
    (pname : String) (ch : Option String) (e : String)
    (h : loadMapFromFile maps prop pname ch = .error e) : notInvalidHead e := by
  rcases ch with _ | c <;> simp only [loadMapFromFile] at h
  · rcases hfl : fileLookup maps pname with e1 | hdu <;> simp only [hfl] at h
    · cases h
      exact fileLookup_error_head _ _ _ hfl
    · rcases hi : fileOptExt maps prop.ivar (pname ++ "_ivar") none with e2 | iv <;>
        simp only [hi] at h
      · cases h
        exact fileOptExt_error_head _ _ _ _ _ hi
      · rcases hm : fileOptExt maps prop.mask (pname ++ "_mask") none with e3 | mk <;>
          simp only [hm] at h
        · cases h
          exact fileOptExt_error_head _ _ _ _ _ hm
        · rcases hu : fileUnit prop.unit none with e4 | u <;> simp only [hu] at h
          · cases h
            exact fileUnit_error_head _ _ _ hu
          · cases h
  · rcases hfl : fileLookup maps pname with e1 | hdu <;> simp only [hfl] at h
    · cases h
      exact fileLookup_error_head _ _ _ hfl
    · rcases hcs : prop.channels with _ | cs <;> simp only [hcs] at h
      · cases h
        decide
      · by_cases hmem : c ∈ cs
      
        · rw [if_pos hmem] at h
          rcases hix : hdu.data.index (cs.indexOf c) with e2 | v <;>
            simp only [hix] at h
          · cases h
            exact arrIndex_error_head _ _ _ hix
          · rcases hi : fileOptExt maps prop.ivar (pname ++ "_ivar")
                (some (cs.indexOf c)) with e3 | iv <;> simp only [hi] at h
            · cases h
              exact fileOptExt_error_head _ _ _ _ _ hi
            · rcases hm : fileOptExt maps prop.mask (pname ++ "_mask")
                  (some (cs.indexOf c)) with e4 | mk <;> simp only [hm] at h
              · cases h
                exact fileOptExt_error_head _ _ _ _ _ hm
              · rcases hu : fileUnit prop.unit (some (cs.indexOf c)) with e5 | u <;>
                  simp only [hu] at h
                · cases h
                  exact fileUnit_error_head _ _ _ hu
                · cases h
        · rw [if_neg hmem] at h
          cases h
          decide

theorem getColumn_error_head (rows : List SpaxelRow) (col : String) (e : String)
    (h : getColumn rows col = .error e) : notInvalidHead e := by
  induction rows with
  | nil => cases h
  | cons row rest ih =>
    unfold getColumn at h
    rcases hl : row.cols.lookup col with _ | v <;> simp only [hl] at h
    · cases h
      exact notInvalidHead_append "AttributeError: " col 'A' (by decide) (by decide)
    · rcases hr : getColumn rest col with e1 | vs <;> simp only [hr] at h
      · cases h
        exact ih hr
      · cases h

theorem reshape_error_head (shape : Nat × Nat) (l : List Int) (e : String)
    (h : reshape shape l = .error e) : notInvalidHead e := by
  unfold reshape at h
  split at h
  · cases h
  · cases h
    exact notInvalidHead_append "cannot reshape array of size " _ 'c' (by decide) (by decide)

theorem dbLoadCol_error_head (sorted : List SpaxelRow) (shape : Nat × Nat)
    (col : String) (e : String) (h : dbLoadCol sorted shape col = .error e) :
    notInvalidHead e := by
  unfold dbLoadCol at h
  rcases hg : getColumn sorted col with e1 | vals <;> simp only [hg] at h
  · cases h
    exact getColumn_error_head _ _ _ hg
  · exact reshape_error_head _ _ _ h

theorem dbLoadOpt_error_head (b : Bool) (sorted : List SpaxelRow)
    (shape : Nat × Nat) (col : String) (e : String)
    (h : dbLoadOpt b sorted shape col = .error e) : notInvalidHead e := by
  unfold dbLoadOpt at h
  split at h
  · rcases hc : dbLoadCol sorted shape col with e1 | a <;> simp only [hc] at h
    · cases h
      exact dbLoadCol_error_head _ _ _ _ hc
    · cases h
  · cases h

theorem dbLoadArrays_error_head (maps : Maps) (prop : MapsProperty)
    (ch : Option String) (e : String)
    (h : dbLoadArrays maps prop ch = .error e) : notInvalidHead e := by
  unfold dbLoadArrays at h
  rcases h1 : dbLoadCol (sortSpaxels (dbActiveRows maps.dbData)) maps.shape
      (prop.fullname ch none) with e2 | v <;> simp only [h1] at h
  · cases h
    exact dbLoadCol_error_head _ _ _ _ h1
  · rcases h2 : dbLoadOpt prop.ivar (sortSpaxels (dbActiveRows maps.dbData))
        maps.shape (prop.fullname ch (some "ivar")) with e3 | iv <;>
      simp only [h2] at h
    · cases h
      exact dbLoadOpt_error_head _ _ _ _ _ h2
    · rcases h3 : dbLoadOpt prop.mask (sortSpaxels (dbActiveRows maps.dbData))
          maps.shape (prop.fullname ch (some "mask")) with e4 | mk <;>
        simp only [h3] at h
      · cases h
        exact dbLoadOpt_error_head _ _ _ _ _ h3
      · cases h

theorem loadMapFromDb_error_head (maps : Maps) (prop : MapsProperty)
    (ch : Option String) (e : String)
    (h : loadMapFromDb maps prop ch = .error e) : notInvalidHead e := by
  unfold loadMapFromDb at h
  rcases ha : dbLoadArrays maps prop ch with e1 | ⟨v, iv, mk⟩ <;> simp only [ha] at h
  · cases h
    exact dbLoadArrays_error_head _ _ _ _ ha
  · cases h

theorem loadMapFromApi_error_head (resp : Except String ApiResponse) (e : String)
    (h : loadMapFromApi resp = .error e) : notInvalidHead e := by
  rcases resp with ee | response <;> simp only [loadMapFromApi] at h
  · cases h
    exact notInvalidHead_append "found a problem when getting the map: " _ 'f'
      (by decide) (by decide)
  · rcases hd : response.data with _ | data <;> simp only [hd] at h
    · cases h
      exact notInvalidHead_append "something went wrong. Error is: " _ 's'
        (by decide) (by decide)
    · cases h

/-- C5: constructing a `Map` fails with the `invalid combination of property
name and channel` error exactly when the (lower-cased) property name resolves
to no registry entry, or the entry has a channel list and the (lower-cased,
possibly absent) channel is not in it; no other part of the construction can
produce that error. -/
theorem map_init_invalid_combination_iff (maps : Maps) (pn : String)
    (ch : Option String) :
    mapInit maps pn ch = .error invalidCombinationMsg ↔
      (propertiesLookup maps.properties (strLower pn) = none ∨
       ∃ prop cs, propertiesLookup maps.properties (strLower pn) = some prop ∧
         prop.channels = some cs ∧ chanMem (normChannel ch) cs = false) := by
  unfold mapInit mapInitCore
  rcases hl : propertiesLookup maps.properties (strLower pn) with _ | prop <;>
    simp only [hl]
  · simp
  · constructor
    · intro h
      by_cases hg : (match prop.channels with
          | some cs => !(chanMem (normChannel ch) cs)
          | none => false) = true
      · right
        rcases hcs : prop.channels with _ | cs <;> rw [hcs] at hg
        · cases hg
        · exact ⟨prop, cs, rfl, hcs, by simpa using hg⟩
      · rw [if_neg hg] at h
        exfalso
        rcases horig : maps.data_origin with _ | _ | _ <;> simp only [horig] at h
        · rcases hres : loadMapFromFile maps prop (strLower pn) (normChannel ch)
              with e | lr <;> simp only [hres] at h
          · cases h
            exact absurd rfl
              (notInvalidHead_ne _ (loadMapFromFile_error_head _ _ _ _ _ hres))
          · cases h
        · rcases hres : loadMapFromDb maps prop (normChannel ch)
              with e | lr <;> simp only [hres] at h
          · cases h
            exact absurd rfl
              (notInvalidHead_ne _ (loadMapFromDb_error_head _ _ _ _ hres))
          · cases h
        · rcases hres : loadMapFromApi maps.apiResponse
              with e | lr <;> simp only [hres] at h
          · cases h
            exact absurd rfl
              (notInvalidHead_ne _ (loadMapFromApi_error_head _ _ hres))
          · cases h
    · intro h
      rcases h with hnone | ⟨prop', cs, hp', hcs, hmem⟩
      · cases hnone
      · have hpp : prop' = prop := by
          cases hp'
          rfl
        subst hpp
        have hg : (match prop'.channels with
            | some cs' => !(chanMem (normChannel ch) cs')
            | none => false) = true := by
          rw [hcs]
          simp [hmem]
        rw [if_pos hg]

theorem map_init_invalid_combination_iff_witness :
    mapInit wMaps "emline_gflux" (some "nii_6585") = .error invalidCombinationMsg ∧
    mapInit wMaps "absent_property" none = .error invalidCombinationMsg :=
  ⟨(map_init_invalid_combination_iff wMaps "emline_gflux" (some "nii_6585")).mpr
      (Or.inr ⟨{name := "emline_gflux", channels := some ["ha_6564"], unit := .single "u"}, ["ha_6564"], by decide, rfl, by decide⟩),
   (map_init_invalid_combination_iff wMaps "absent_property" none).mpr
      (Or.inl (by decide))⟩

/-! ## Theorems: the DB loader re-sort (claim about `Map._load_map_from_db`) -/

/-- The ascending `spaxel_index` comparison used by the re-sort. -/
def spaxLE (a b : SpaxelRow) : Prop := a.spaxel_index ≤ b.spaxel_index

/-- The strict version, used to identify sorted permutations. -/
def spaxLT (a b : SpaxelRow) : Prop := a.spaxel_index < b.spaxel_index

instance : DecidableRel spaxLE := fun a b => Nat.decLe a.spaxel_index b.spaxel_index

instance : IsTotal SpaxelRow spaxLE := ⟨fun a b => Nat.le_total a.spaxel_index b.spaxel_index⟩

instance : IsTrans SpaxelRow spaxLE := ⟨fun _ _ _ => Nat.le_trans⟩

instance : IsAntisymm SpaxelRow spaxLT :=
  ⟨fun _ _ h1 h2 => absurd (Nat.lt_trans h1 h2) (Nat.lt_irrefl _)⟩

theorem sortSpaxels_eq_insertionSort (rows : List SpaxelRow) :
    sortSpaxels rows = rows.insertionSort spaxLE := rfl

theorem sortSpaxels_perm (rows : List SpaxelRow) : (sortSpaxels rows).Perm rows :=
  List.perm_insertionSort spaxLE rows

theorem sortSpaxels_sorted (rows : List SpaxelRow) :
    (sortSpaxels rows).Sorted spaxLE :=
  List.sorted_insertionSort spaxLE rows

/-- A weakly sorted list whose keys are distinct is strictly sorted. -/
theorem sorted_lt_of_sorted_le_nodup (s : List SpaxelRow)
    (hs : s.Sorted spaxLE) (hnd : (s.map SpaxelRow.spaxel_index).Nodup) :
    s.Sorted spaxLT := by
  have hne : s.Pairwise (fun a b => a.spaxel_index ≠ b.spaxel_index) :=
    List.pairwise_map.mp hnd
  exact (hs.and hne).imp (fun hab => Nat.lt_of_le_of_ne hab.1 hab.2)

/-- With distinct `spaxel_index` keys, the re-sorted row list does not depend
on the order in which the DB returned the rows. -/
theorem sortSpaxels_eq_of_perm (rows₁ rows₂ : List SpaxelRow)
    (hperm : rows₁.Perm rows₂)
    (hnd : (rows₂.map SpaxelRow.spaxel_index).Nodup) :
    sortSpaxels rows₁ = sortSpaxels rows₂ := by
  have hnd₁ : (rows₁.map SpaxelRow.spaxel_index).Nodup :=
    ((hperm.map SpaxelRow.spaxel_index).nodup_iff).mpr hnd
  have hsnd₁ : ((sortSpaxels rows₁).map SpaxelRow.spaxel_index).Nodup :=
    (((sortSpaxels_perm rows₁).map SpaxelRow.spaxel_index).nodup_iff).mpr hnd₁
  have hsnd₂ : ((sortSpaxels rows₂).map SpaxelRow.spaxel_index).Nodup :=
    (((sortSpaxels_perm rows₂).map SpaxelRow.spaxel_index).nodup_iff).mpr hnd
  have hp : (sortSpaxels rows₁).Perm (sortSpaxels rows₂) :=
    ((sortSpaxels_perm rows₁).trans hperm).trans (sortSpaxels_perm rows₂).symm
  exact List.eq_of_perm_of_sorted hp
    (sorted_lt_of_sorted_le_nodup _ (sortSpaxels_sorted rows₁) hsnd₁)
    (sorted_lt_of_sorted_le_nodup _ (sortSpaxels_sorted rows₂) hsnd₂)

/-- Replaces both spaxelprops tables of a `Maps` with the given rows, so the
active table is `rows` whatever the DAP version switch says. -/
def withRows (maps : Maps) (rows : List SpaxelRow) : Maps :=
  {maps with dbData := {maps.dbData with spaxelprops := rows, spaxelprops5 := rows}}

theorem dbActiveRows_withRows (maps : Maps) (rows : List SpaxelRow) :
    dbActiveRows (withRows maps rows).dbData = rows := by
  unfold withRows dbActiveRows
  split <;> rfl

/-- C2: after the DB load, the value array is the per-spaxel column re-sorted
in ascending `spaxel_index` order and reshaped to the parent's spatial shape
(likewise ivar and mask when the property declares them), and the result does
not depend on the order in which the DB returned the rows (their
`spaxel_index` keys being distinct). -/
theorem load_map_from_db_value_sorted (maps : Maps) (prop : MapsProperty)
    (ch : Option String) (rows₁ rows₂ : List SpaxelRow)
    (hperm : rows₁.Perm rows₂)
    (hnd : (rows₂.map SpaxelRow.spaxel_index).Nodup) :
    loadMapFromDb (withRows maps rows₁) prop ch =
      loadMapFromDb (withRows maps rows₂) prop ch ∧
    (sortSpaxels rows₂).Perm rows₂ ∧
    (sortSpaxels rows₂).Sorted spaxLE ∧
    (∀ lr, loadMapFromDb (withRows maps rows₂) prop ch = .ok lr →
      (∃ vals, getColumn (sortSpaxels rows₂) (prop.fullname ch none) = .ok vals ∧
        reshape maps.shape vals = .ok lr.value) ∧
      (prop.ivar = true → ∃ ivals iarr,
        getColumn (sortSpaxels rows₂) (prop.fullname ch (some "ivar")) = .ok ivals ∧
        reshape maps.shape ivals = .ok iarr ∧ lr.ivar = some iarr) ∧
      (prop.mask = true → ∃ mvals marr,
        getColumn (sortSpaxels rows₂) (prop.fullname ch (some "mask")) = .ok mvals ∧
        reshape maps.shape mvals = .ok marr ∧ lr.mask = some marr)) := by
  have hs : sortSpaxels rows₁ = sortSpaxels rows₂ :=
    sortSpaxels_eq_of_perm _ _ hperm hnd
  refine ⟨?_, sortSpaxels_perm rows₂, sortSpaxels_sorted rows₂, ?_⟩
  · unfold loadMapFromDb dbLoadArrays
    rw [dbActiveRows_withRows, dbActiveRows_withRows, hs]
    rfl
  · intro lr hlr
    unfold loadMapFromDb at hlr
    rcases ha : dbLoadArrays (withRows maps rows₂) prop ch with e | ⟨v, iv, mk⟩ <;>
      simp only [ha] at hlr
    · cases hlr
    · unfold dbLoadArrays at ha
      rw [dbActiveRows_withRows] at ha
      rcases h1 : dbLoadCol (sortSpaxels rows₂) (withRows maps rows₂).shape
          (prop.fullname ch none) with e2 | v' <;> simp only [h1] at ha
      · cases ha
      · rcases h2 : dbLoadOpt prop.ivar (sortSpaxels rows₂)
            (withRows maps rows₂).shape (prop.fullname ch (some "ivar"))
            with e3 | iv' <;> simp only [h2] at ha
        · cases ha
        · rcases h3 : dbLoadOpt prop.mask (sortSpaxels rows₂)
              (withRows maps rows₂).shape (prop.fullname ch (some "mask"))
              with e4 | mk' <;> simp only [h3] at ha
          · cases ha
          · cases ha
            cases hlr
            refine ⟨?_, ?_, ?_⟩
            · unfold dbLoadCol at h1
              rcases hg : getColumn (sortSpaxels rows₂) (prop.fullname ch none)
                  with e5 | vals <;> simp only [hg] at h1
              · cases h1
              · exact ⟨vals, rfl, h1⟩
            · intro hiv
              unfold dbLoadOpt at h2
              rw [if_pos hiv] at h2
              rcases hc : dbLoadCol (sortSpaxels rows₂) (withRows maps rows₂).shape
                  (prop.fullname ch (some "ivar")) with e6 | a <;> simp only [hc] at h2
              · cases h2
              · cases h2
                unfold dbLoadCol at hc
                rcases hg : getColumn (sortSpaxels rows₂)
                    (prop.fullname ch (some "ivar")) with e7 | ivals <;>
                  simp only [hg] at hc
                · cases hc
                · exact ⟨ivals, a, rfl, hc, rfl⟩
            · intro hmk
              unfold dbLoadOpt at h3
              rw [if_pos hmk] at h3
              rcases hc : dbLoadCol (sortSpaxels rows₂) (withRows maps rows₂).shape
                  (prop.fullname ch (some "mask")) with e6 | a <;> simp only [hc] at h3
              · cases h3
              · cases h3
                unfold dbLoadCol at hc
                rcases hg : getColumn (sortSpaxels rows₂)
                    (prop.fullname ch (some "mask")) with e7 | mvals <;>
                  simp only [hg] at hc
                · cases hc
                · exact ⟨mvals, a, rfl, hc, rfl⟩

/-- Fixtures for the DB re-sort witness: rows arriving out of raster order. -/
def tProp2 : MapsProperty := {name := "em", ivar := true}

def tRowA : SpaxelRow := {spaxel_index := 1, cols := [("em", 7), ("em_ivar", 70)]}

def tRowB : SpaxelRow := {spaxel_index := 0, cols := [("em", 5), ("em_ivar", 50)]}

def tMapsC2 : Maps := {shape := (1, 2), data_origin := Origin.db}

theorem load_map_from_db_value_sorted_witness :
    loadMapFromDb (withRows tMapsC2 [tRowA, tRowB]) tProp2 none =
      loadMapFromDb (withRows tMapsC2 [tRowB, tRowA]) tProp2 none ∧
    loadMapFromDb (withRows tMapsC2 [tRowB, tRowA]) tProp2 none =
      .ok {value := .dim [.dim [.scalar 5, .scalar 7]], ivar := some (.dim [.dim [.scalar 50, .scalar 70]]), mask := none, header := none, unit := none, warnings := [headerWarnMsg "em"]} :=
  ⟨(load_map_from_db_value_sorted tMapsC2 tProp2 none [tRowA, tRowB] [tRowB, tRowA]
      (by decide) (by decide)).1, rfl⟩

/-! ## Theorems: channel slice consistency across the three origins -/

/-- Indexing a mapped list at the index of a member recovers the member's
image: `data[channels.index(channel)]` selects the channel's own slice. -/
theorem getElem?_map_indexOf {α β : Type} [DecidableEq α] (f : α → β)
    (cs : List α) (c : α) (hc : c ∈ cs) :
    (cs.map f)[cs.indexOf c]? = some (f c) := by
  have hlt : cs.indexOf c < cs.length := List.indexOf_lt_length.mpr hc
  rw [List.getElem?_map, List.getElem?_eq_getElem hlt, List.getElem_indexOf hlt]
  rfl

/-- C4: for a channel-bearing property, the three origin loaders select the
same channel slice.  If the file stores the 3D stack channel-by-channel in
the order of the property's channel list, the DB column for the channel
reassembles to the ground-truth plane, and the API payload carries that plane
already sliced, then the file loader's `data[channels.index(channel)]`, the
DB loader and the API loader all produce the ground-truth plane `gt c` as the
value. -/
theorem map_channel_slice_consistent (maps : Maps) (prop : MapsProperty)
    (pname : String) (c : String) (cs : List String) (gt : String → Plane)
    (hdr : List (String × String)) (dvals : List Int) (resp : ApiResponse)
    (data : ApiData)
    (hchan : prop.channels = some cs) (hc : c ∈ cs)
    (hivar : prop.ivar = false) (hmask : prop.mask = false)
    (hunit : prop.unit = .single "u")
    (hfile : maps.fileData.lookup pname =
      some {header := hdr, data := .dim (cs.map (fun chn => Arr.ofPlane (gt chn)))})
    (hdbcol : getColumn (sortSpaxels (dbActiveRows maps.dbData))
      (prop.fullname (some c) none) = .ok dvals)
    (hreshape : reshape maps.shape dvals = .ok (Arr.ofPlane (gt c)))
    (hapi : maps.apiResponse = .ok resp) (hdata : resp.data = some data)
    (hvalue : data.value = Arr.ofPlane (gt c)) :
    (∃ lrF, loadMapFromFile maps prop pname (some c) = .ok lrF ∧
      lrF.value = Arr.ofPlane (gt c)) ∧
    (∃ lrD, loadMapFromDb maps prop (some c) = .ok lrD ∧
      lrD.value = Arr.ofPlane (gt c)) ∧
    (∃ lrA, loadMapFromApi maps.apiResponse = .ok lrA ∧
      lrA.value = Arr.ofPlane (gt c)) := by
  refine ⟨?_, ?_, ?_⟩
  · have hix : (Arr.dim (cs.map (fun chn => Arr.ofPlane (gt chn)))).index
        (cs.indexOf c) = .ok (Arr.ofPlane (gt c)) := by
      simp only [Arr.index]
      rw [getElem?_map_indexOf (fun chn => Arr.ofPlane (gt chn)) cs c hc]
    refine ⟨{value := Arr.ofPlane (gt c), ivar := none, mask := none, header := some hdr, unit := some "u"}, ?_, rfl⟩
    unfold loadMapFromFile fileLookup
    rw [hfile]
    simp only [hchan, hc, if_true]
    rw [hix]
    simp only [fileOptExt, hivar, hmask, fileUnit, hunit]
    simp
  · unfold loadMapFromDb dbLoadArrays dbLoadCol
    simp only [hdbcol, hreshape, dbLoadOpt, hivar, hmask, Bool.false_eq_true, if_false]
    exact ⟨_, rfl, rfl⟩
  · rw [hapi]
    simp only [loadMapFromApi, hdata]
    exact ⟨_, rfl, hvalue⟩

/-- Ground truth for the consistency witness: one plane per channel. -/
def gtW (chn : String) : Plane := if chn = "nii" then [[1, 2]] else [[3, 4]]

def prop4 : MapsProperty := {name := "em4", channels := some ["ha", "nii"], unit := .single "u"}

def dataW : ApiData :=
  {value := Arr.ofPlane (gtW "nii"), ivar := .dim [], mask := .dim [], unit := "u", header := []}

def respW : ApiResponse := {data := some dataW, error := ""}

def maps4 : Maps :=
  {shape := (1, 2), data_origin := Origin.file, properties := [prop4],
   fileData := [("em4", {header := [("H", "1")], data := .dim (["ha", "nii"].map (fun chn => Arr.ofPlane (gtW chn)))})],
   dbData := {dapver_le_111 := true,
              spaxelprops := [{spaxel_index := 0, cols := [("em4_nii", 1)]}, {spaxel_index := 1, cols := [("em4_nii", 2)]}]},
   apiResponse := .ok respW}

theorem map_channel_slice_consistent_witness :
    (∃ lrF, loadMapFromFile maps4 prop4 "em4" (some "nii") = .ok lrF ∧
      lrF.value = Arr.ofPlane (gtW "nii")) ∧
    (∃ lrD, loadMapFromDb maps4 prop4 (some "nii") = .ok lrD ∧
      lrD.value = Arr.ofPlane (gtW "nii")) ∧
    (∃ lrA, loadMapFromApi maps4.apiResponse = .ok lrA ∧
      lrA.value = Arr.ofPlane (gtW "nii")) :=
  map_channel_slice_consistent maps4 prop4 "em4" "nii" ["ha", "nii"] gtW
    [("H", "1")] [1, 2] respW dataW rfl (by decide) rfl rfl rfl rfl rfl rfl rfl rfl rfl
